import Mathlib

/-!
# Verification of `tools/cice_bry.py` (METROMS CICE boundary-file generator)

Shallow embedding of the data model and algorithms of `tools/cice_bry.py`:
the boundary-variable catalog (`BryVar`, `omnibry_var`, `load_bry_vars`),
the ice-category binning mask (`cat_lims`, `cat_mask`), the per-point
derivation pipeline of `CiceBryHax.write_bry_data` (`aicen_code`,
`vicen_code`, `vsnon_code`, `linspace`, `tinz_code`), the time-endpoint
lookup (`get_time_endpoints`), catalog verification (`verify_variables`),
the precondition guard of `write_bry_data`, the destructors (`hax_del`),
and the name-resolution behaviour of `set_cice_rst`.

Real numbers from the source are modelled as rationals (`ℚ`); the numpy
per-point operations (`np.where`, `np.linspace`, comparisons) act
pointwise on boundary transects, so they are embedded as scalar
functions of the values at one boundary point and one vertical level.
-/

/-- Python `str.replace` on character lists: replaces every
non-overlapping occurrence of `pat` left to right.  `fuel` bounds the
recursion; each step consumes at least one character of the subject, so
`fuel = s.length` is always sufficient. -/
def replaceFuel (pat rep : List Char) : ℕ → List Char → List Char
  | 0, s => s
  | _ + 1, [] => []
  | fuel + 1, c :: cs =>
    if pat.isPrefixOf (c :: cs) then
      rep ++ replaceFuel pat rep fuel (cs.drop (pat.length - 1))
    else
      c :: replaceFuel pat rep fuel cs

/-- Python `str.replace`: `s.replace(pat, rep)` with every non-overlapping
occurrence replaced, scanning left to right. -/
def pyReplace (s pat rep : String) : String :=
  ⟨replaceFuel pat.data rep.data s.data.length s.data⟩

/-- The numpy element datatypes used by the catalog (`np.int16`, `float`). -/
inductive NpType where
  | int16
  | float64
deriving DecidableEq, Repr

/-- `BryVar`: metadata record for one CICE boundary variable
(`name`, `dtype`, `dims`, `attrs` of the Python class). -/
structure BryVar where
  name : String
  dtype : NpType
  dims : List String
  attrs : List (String × String)
deriving DecidableEq, Repr

/-- `self.bry_order = ["W", "S", "E", "N"]`. -/
def bry_order : List String := ["W", "S", "E", "N"]

/-- `bry_to_coor = {"W": "eta_t", "S": "xi_t", "E": "eta_t", "N": "xi_t"}`
from `CiceBry.omnibry_var`. -/
def bry_to_coor : List (String × String) :=
  [("W", "eta_t"), ("S", "xi_t"), ("E", "eta_t"), ("N", "xi_t")]

/-- `CiceBry.omnibry_var`: one `BryVar` per boundary wall, replacing the
placeholder `rep` in the name and attribute values with the direction
letter, and in dimension names with that direction's coordinate axis. -/
def omnibry_var (name : String) (dtype : NpType) (dims : List String)
    (attrs : List (String × String)) (rep : String) : List BryVar :=
  bry_order.map (fun bry =>
    ⟨pyReplace name rep bry,
     dtype,
     dims.map (fun d => pyReplace d rep ((bry_to_coor.lookup bry).getD bry)),
     attrs.map (fun kv => (kv.1, pyReplace kv.2 rep bry))⟩)

/-- `CiceBry.load_bry_vars`: the full boundary-variable catalog. -/
def load_bry_vars : List BryVar :=
  [⟨"Time", .int16, ["days"],
    [("long_name", "model time"), ("units", "days since 2008-01-01 00:00:00")]⟩,
   ⟨"Ice_layers", .int16, ["nkice"],
    [("long_name", "vertical ice levels"), ("units", "1")]⟩]
  ++ omnibry_var "TLON_BRY" .float64 ["BRY"]
      [("long_name", "T grid center longitude - BRY boundary"), ("units", "degrees_east")] "BRY"
  ++ omnibry_var "TLAT_BRY" .float64 ["BRY"]
      [("long_name", "T grid center latitude - BRY boundary"), ("units", "degrees_north")] "BRY"
  ++ omnibry_var "Tsfc_BRY_bry" .float64 ["days", "ice_types", "BRY"]
      [("long_name", "snow/ice surface temperature - BRY boundary")] "BRY"
  ++ omnibry_var "aicen_BRY_bry" .float64 ["days", "ice_types", "BRY"]
      [("long_name", "ice area (aggregate) - BRY boundary")] "BRY"
  ++ omnibry_var "vicen_BRY_bry" .float64 ["days", "ice_types", "BRY"]
      [("long_name", "grid cell mean ice thickness - BRY boundary"), ("units", "m")] "BRY"
  ++ omnibry_var "vsnon_BRY_bry" .float64 ["days", "ice_types", "BRY"]
      [("long_name", "grid cell mean snow thickness - BRY boundary"), ("units", "m")] "BRY"
  ++ omnibry_var "apond_BRY_bry" .float64 ["days", "ice_types", "BRY"]
      [("long_name", "melt pond fraction - BRY boundary"), ("units", "1")] "BRY"
  ++ omnibry_var "hpond_BRY_bry" .float64 ["days", "ice_types", "BRY"]
      [("long_name", "mean melt pond depth - BRY boundary"), ("units", "m")] "BRY"
  ++ omnibry_var "ipond_BRY_bry" .float64 ["days", "ice_types", "BRY"]
      [("long_name", "mean melt pond ice thickness - BRY boundary"), ("units", "m")] "BRY"
  ++ omnibry_var "fbrine_BRY_bry" .float64 ["days", "ice_types", "BRY"]
      [("long_name", "ratio of brine tracer height to ice thickness - BRY boundary"), ("units", "1")] "BRY"
  ++ omnibry_var "hbrine_BRY_bry" .float64 ["days", "ice_types", "BRY"]
      [("long_name", "brine surface height above sea ice base - BRY boundary"), ("units", "m")] "BRY"
  ++ omnibry_var "iage_BRY_bry" .float64 ["days", "ice_types", "BRY"]
      [("long_name", "ice age - BRY boundary")] "BRY"
  ++ omnibry_var "alvln_BRY_bry" .float64 ["days", "ice_types", "BRY"]
      [("long_name", "concentration of level ice - BRY boundary"), ("units", "1")] "BRY"
  ++ omnibry_var "vlvln_BRY_bry" .float64 ["days", "ice_types", "BRY"]
      [("long_name", "volume per unit of area of level ice - BRY boundary"), ("units", "m")] "BRY"
  ++ omnibry_var "Tinz_BRY_bry" .float64 ["days", "ice_types", "nkice", "BRY"]
      [("long_name", "vertical temperature profile - BRY boundary")] "BRY"
  ++ omnibry_var "Sinz_BRY_bry" .float64 ["days", "ice_types", "nkice", "BRY"]
      [("long_name", "vertical salinity profile - BRY boundary")] "BRY"

/-- `self.cat_lims = [0, 0.6445072, 1.391433, 2.470179, 4.567288, 1e+08]`:
upper limits of the ice categories. -/
def cat_lims : List ℚ := [0, 0.6445072, 1.391433, 2.470179, 4.567288, 1e8]

/-- The per-point category mask of `write_bry_data`:
`np.logical_and(hice > cat_lims[n], hice < cat_lims[n+1])`. -/
def cat_mask (h : ℚ) (n : ℕ) : Bool :=
  decide (cat_lims.getD n 0 < h) && decide (h < cat_lims.getD (n + 1) 0)

/-- Per-point value written to `aicen_<bry>_bry`:
`np.where(cat_mask, aice, 0.0) * land_mask`. -/
def aicen_code (mask : Bool) (aice land : ℚ) : ℚ :=
  (if mask then aice else 0) * land

/-- Per-point value written to `vicen_<bry>_bry`:
`np.where(cat_mask, hice*aice, 0.0) * land_mask`. -/
def vicen_code (mask : Bool) (hice aice land : ℚ) : ℚ :=
  (if mask then hice * aice else 0) * land

/-- Per-point value written to `vsnon_<bry>_bry`:
`np.where(cat_mask, 0.2 * <vicen value already written>, 0.0) * land_mask`.
The code reads `self.bry.variables["vicen_..."][bslice]` back, i.e. the
masked and land-masked value written in the preceding statement. -/
def vsnon_code (mask : Bool) (hice aice land : ℚ) : ℚ :=
  (if mask then 0.2 * vicen_code mask hice aice land else 0) * land

/-- `np.linspace(a, b, num)` evaluated at index `i`
(`num ≥ 2`: `a + i*(b-a)/(num-1)`; `num ≤ 1`: the start point). -/
def linspace (a b : ℚ) (num : ℕ) (i : ℕ) : ℚ :=
  if num ≤ 1 then a else a + (i : ℚ) * (b - a) / ((num : ℚ) - 1)

/-- Per-point, per-level value written to `Tinz_<bry>_bry` by the code:
`snow_mask = vsnon_written > 0.01`;
`temp_interp_ice = np.linspace(toce, tair, nkice)`;
`temp_interp_sno = np.linspace(toce, toce - 0.2*np.abs(toce - tair), nkice)`;
`temp_interp = np.where(snow_mask, temp_interp_sno, temp_interp_ice)`;
`Tinz = np.where(cat_mask, temp_interp, -5.0) * land_mask`. -/
def tinz_code (mask : Bool) (vsnonW toce tair land : ℚ) (nk i : ℕ) : ℚ :=
  let snow_mask : Bool := decide ((0.01 : ℚ) < vsnonW)
  let temp_interp_ice := linspace toce tair nk i
  let temp_interp_sno := linspace toce (toce - 0.2 * |toce - tair|) nk i
  let temp_interp := if snow_mask then temp_interp_sno else temp_interp_ice
  (if mask then temp_interp else -5.0) * land

/-- Modelled from the spec's wording of the temperature profile: where the
category mask is true, interpolate from the ocean surface temperature to
`ocean_temp - 0.2*|ocean_temp - air_temp|` if the just-written snow volume
exceeds 0.01, else to the air temperature; where the mask is false the
constant `-5.0`; in all cases multiplied by the land mask. -/
def tinz_spec (mask : Bool) (vsnonW toce tair land : ℚ) (nk i : ℕ) : ℚ :=
  (if mask then
    (if (0.01 : ℚ) < vsnonW then linspace toce (toce - 0.2 * |toce - tair|) nk i
     else linspace toce tair nk i)
   else -5.0) * land

/-- Errors raised by `CiceBry.get_time_endpoints`: the start/end-dates-unset
check, and the two not-found errors, each naming the missing date and the
dataset's file path. -/
inductive TimeErr where
  | datesNotSet
  | startNotFound (d : ℤ) (path : String)
  | endNotFound (d : ℤ) (path : String)
deriving DecidableEq, Repr

/-- `np.where(time == d)[0]`: the indices of the time axis whose entry
equals `d`, in increasing order. -/
def np_where_eq (time : List ℤ) (d : ℤ) : List ℕ :=
  (List.range time.length).filter (fun i => time.getD i 0 == d)

/-- `CiceBry.get_time_endpoints`: first indices of the start and end dates
in the decoded time axis; raises if a date is unset or absent. -/
def get_time_endpoints (time : List ℤ) (start_date end_date : Option ℤ)
    (path : String) : Except TimeErr (ℕ × ℕ) :=
  match start_date, end_date with
  | some sd, some ed =>
    match (np_where_eq time sd).head? with
    | none => .error (.startNotFound sd path)
    | some i =>
      match (np_where_eq time ed).head? with
      | none => .error (.endNotFound ed path)
      | some j => .ok (i, j)
  | _, _ => .error .datesNotSet

/-- Outcome of `CiceBry.verify_variables`: success, a missing-variable
error, an extraneous-variable error, or Python's `NameError` for the
`for var.name in ...` loop when `self.bry_vars` is empty. -/
inductive VerResult where
  | ok
  | missing (v : String)
  | extraneous (v : String)
  | nameErr
deriving DecidableEq, Repr

/-- The second loop of `verify_variables`
(`for var.name in self.bry.variables.keys(): ...`): walks the file's
variable names, assigning each to `var.name` (the attribute of the last
catalog entry) and raising on the first name not in `necessary`.  Returns
the result together with the last value assigned to `var.name`. -/
def verify_loop2 (necessary : List String) :
    List String → Option String → VerResult × Option String
  | [], last => (.ok, last)
  | k :: ks, _ =>
    if necessary.contains k then verify_loop2 necessary ks (some k)
    else (.extraneous k, some k)

/-- Replace the name of the last element of a `BryVar` list (the effect of
assigning to `var.name` where `var` is bound to the last catalog entry). -/
def setLastName : List BryVar → String → List BryVar
  | [], _ => []
  | [v], nm => [⟨nm, v.dtype, v.dims, v.attrs⟩]
  | v :: w :: rest, nm => v :: setLastName (w :: rest) nm

/-- `CiceBry.verify_variables`, with its effect on `self.bry_vars`:
first loop checks every catalog entry's name is in the file; second loop
(`for var.name in self.bry.variables.keys()`) re-binds the loop target to
the `name` attribute of the last catalog entry while checking for
extraneous file variables.  Returns the outcome and the post-state of
`bry_vars`. -/
def verify_variables (bry_vars : List BryVar) (necessary : List String)
    (fileNames : List String) : VerResult × List BryVar :=
  match bry_vars.find? (fun v => !(fileNames.contains v.name)) with
  | some v => (.missing v.name, bry_vars)
  | none =>
    match bry_vars, fileNames with
    | [], _ :: _ => (.nameErr, [])
    | _, _ =>
      match verify_loop2 necessary fileNames none with
      | (r, none) => (r, bry_vars)
      | (r, some nm) => (r, setLastName bry_vars nm)

/-- Configuration errors of `CiceBryHax.write_bry_data`, naming the
missing source (`"No grid file has been set!"` etc.). -/
inductive CfgErr where
  | noGrid
  | noClm
  | noAtm
deriving DecidableEq, Repr

/-- `zero_vars_3d` from `write_bry_data`. -/
def zero_vars_3d : List String :=
  ["iage_BRY_bry", "apond_BRY_bry", "hpond_BRY_bry", "ipond_BRY_bry",
   "fbrine_BRY_bry", "hbrine_BRY_bry", "alvln_BRY_bry", "vlvln_BRY_bry"]

/-- Variables written for one boundary wall inside the category loop of
`write_bry_data`, in program order. -/
def per_bry_writes (bry : String) : List String :=
  ["aicen_" ++ bry ++ "_bry", "vicen_" ++ bry ++ "_bry",
   "vsnon_" ++ bry ++ "_bry", "Tsfc_" ++ bry ++ "_bry",
   "Sinz_" ++ bry ++ "_bry", "Tinz_" ++ bry ++ "_bry"]
  ++ zero_vars_3d.map (fun v => pyReplace v "BRY" bry)

/-- `CiceBryHax.write_bry_data` as a write trace: the three source checks
(grid, clm, atm, in that order) precede every write to the boundary file;
on success the returned list is the sequence of variables written
(time-units attribute, time-independent fields, then the
time/category/boundary loop for `nt` time steps). -/
def write_bry_data (grid clm atm : Option Unit) (nt : ℕ) :
    Except CfgErr (List String) :=
  match grid with
  | none => .error .noGrid
  | some _ =>
    match clm with
    | none => .error .noClm
    | some _ =>
      match atm with
      | none => .error .noAtm
      | some _ =>
        .ok (["Time:units", "Ice_layers"]
          ++ (bry_order.map (fun b => ["TLON_" ++ b, "TLAT_" ++ b])).join
          ++ ((List.range nt).map (fun _ =>
                "Time" :: ((List.range 5).map (fun _ =>
                  (bry_order.map per_bry_writes).join)).join)).join)

/-- State of one dataset-handle attribute of a `CiceBry`/`CiceBryHax`
object: never assigned, assigned `None`, an open dataset, or a closed
dataset. -/
inductive HState where
  | absent
  | null
  | opened
  | closed
deriving DecidableEq, Repr

/-- One guarded close from `CiceBryHax.__del__`:
`if hasattr(self, x) and x is not None and x.isopen(): x.close()`.
Only an open handle changes state; no error is possible. -/
def close_guarded : HState → HState
  | .opened => .closed
  | s => s

/-- `CiceBry.__del__`: `if hasattr(self, "bry") and self.bry.isopen():
self.bry.close()`.  There is no `is not None` guard, so calling it with
`bry = None` would raise (`None.isopen()`); modelled as the error case. -/
def close_bry : HState → Except Unit HState
  | .absent => .ok .absent
  | .null => .error ()
  | .opened => .ok .closed
  | .closed => .ok .closed

/-- The four handle attributes of a `CiceBryHax` object. -/
structure HaxState where
  grid : HState
  clm : HState
  atm : HState
  bry : HState
deriving DecidableEq, Repr

/-- `CiceBryHax.__del__`: guarded closes of grid, clm and atm, then
`super().__del__()` closing the boundary file. -/
def hax_del (s : HaxState) : Except Unit HaxState :=
  match close_bry s.bry with
  | .error e => .error e
  | .ok b => .ok ⟨close_guarded s.grid, close_guarded s.clm, close_guarded s.atm, b⟩

/-- The modules imported at the top of `cice_bry.py`
(`import os, netCDF4, numpy as np, datetime as dt`). -/
def imported_modules : List String := ["os", "netCDF4", "np", "dt"]

/-- The top-level definitions of the module. -/
def toplevel_defs : List String := ["BryVar", "CiceBry", "CiceBryHax"]

/-- The local names bound inside `set_cice_rst` (its parameters; attribute
assignments such as `self.cice_file = ...` bind no local name). -/
def set_cice_rst_locals : List String := ["self", "cice_file"]

/-- The Python builtins the module refers to (neither `glob` nor
`cice_files` is a builtin). -/
def module_builtins : List String :=
  ["any", "all", "sorted", "print", "range", "len", "list", "tuple",
   "type", "setattr", "getattr", "hasattr", "float", "int", "str"]

/-- Python name resolution as seen from the body of `set_cice_rst`:
locals, then module globals (imports and top-level defs), then builtins. -/
def name_resolves (n : String) : Bool :=
  set_cice_rst_locals.contains n || imported_modules.contains n
  || toplevel_defs.contains n || module_builtins.contains n

/-- The attributes `set_cice_rst` may touch on a `CiceBryHax` object. -/
structure RstState where
  cice_file : Option (List String)
  cice_files : Option (List String)
  cice : Option (List String)
deriving DecidableEq, Repr

/-- Python name-resolution failure (`NameError: name '...' is not defined`). -/
inductive PyNameError where
  | glob
  | ciceFiles
deriving DecidableEq, Repr

/-- `CiceBryHax.set_cice_rst`: if the argument contains a glob wildcard,
evaluate `sorted(glob.glob(cice_file))` (resolving the name `glob`) and
store it in `self.cice_files`; otherwise set `self.cice_file = [cice_file]`;
then build `self.cice` by iterating the name `cice_files`.  `globEval` and
`ciceFilesVal` stand for the values those names would have if they
resolved; a failed resolution leaves the assignment unexecuted and raises. -/
def set_cice_rst (s0 : RstState) (cf : String)
    (globEval : String → List String) (ciceFilesVal : List String) :
    RstState × Option PyNameError :=
  if cf.data.contains '*' || cf.data.contains '?' then
    if name_resolves "glob" then
      (⟨s0.cice_file, some ((globEval cf).mergeSort (· ≤ ·)), s0.cice⟩, none)
    else (s0, some .glob)
  else
    let s1 : RstState := ⟨some [cf], s0.cice_files, s0.cice⟩
    if name_resolves "cice_files" then (⟨s1.cice_file, s1.cice_files, some ciceFilesVal⟩, none)
    else (s1, some .ciceFiles)

/-- C1: for every thickness `h` and category index `n < 5`, the category
mask is true iff `cat_lims[n] < h < cat_lims[n+1]` (strict on both ends);
a thickness of `1.0` makes only the mask of category index 1 true; and a
thickness exactly equal to any threshold of the table makes all five
masks false. -/
theorem cat_mask_correct :
    (∀ (h : ℚ) (n : ℕ), n < 5 →
      (cat_mask h n = true ↔ cat_lims.getD n 0 < h ∧ h < cat_lims.getD (n + 1) 0))
    ∧ (cat_mask 1 1 = true ∧ ∀ n : ℕ, n < 5 → n ≠ 1 → cat_mask 1 n = false)
    ∧ (∀ t ∈ cat_lims, ∀ n : ℕ, n < 5 → cat_mask t n = false) := by
  refine ⟨fun h n _ => by simp [cat_mask], ⟨?_, ?_⟩, ?_⟩
  · norm_num [cat_mask, cat_lims]
  · intro n hn hne
    interval_cases n
    · norm_num [cat_mask, cat_lims]
    · exact absurd rfl hne
    · norm_num [cat_mask, cat_lims]
    · norm_num [cat_mask, cat_lims]
    · norm_num [cat_mask, cat_lims]
  · intro t ht n hn
    fin_cases ht <;> interval_cases n <;> norm_num [cat_mask, cat_lims]

/-- Witness for `cat_mask_correct` at concrete inputs. -/
theorem cat_mask_correct_witness :
    (cat_mask 1 1 = true ↔ cat_lims.getD 1 0 < 1 ∧ (1 : ℚ) < cat_lims.getD 2 0)
    ∧ cat_mask 0.6445072 2 = false :=
  ⟨cat_mask_correct.1 1 1 (by norm_num),
   cat_mask_correct.2.2 0.6445072 (by norm_num [cat_lims]) 2 (by norm_num)⟩

/-- C2: the snow volume written by `write_bry_data` equals, where the
category mask is true, `0.2` times the already-written (masked and
land-masked) ice volume, and `0` where the mask is false, the result
multiplied by the land mask; and it is not the unmasked recomputation
`0.2 * (hice * aice)` (they differ at a concrete point). -/
theorem vsnon_code_correct :
    (∀ (mask : Bool) (hice aice land : ℚ),
      vsnon_code mask hice aice land =
        (if mask then 0.2 * vicen_code mask hice aice land else 0) * land)
    ∧ ∃ (mask : Bool) (hice aice land : ℚ),
        vsnon_code mask hice aice land ≠ 0.2 * (hice * aice) := by
  refine ⟨fun _ _ _ _ => rfl, false, 1, 1, 1, ?_⟩
  norm_num [vsnon_code]

/-- C3: the vertical temperature profile written by `write_bry_data`
agrees with the spec's description: where the category mask holds, it is
the `nkice`-level linear interpolation from the ocean surface temperature
to `ocean_temp - 0.2*|ocean_temp - air_temp|` when the just-written snow
volume exceeds `0.01`, else to the air temperature; where the mask fails
it is the constant `-5.0`; in all cases multiplied by the land mask. -/
theorem tinz_code_correct :
    ∀ (mask : Bool) (vsnonW toce tair land : ℚ) (nk i : ℕ),
      tinz_code mask vsnonW toce tair land nk i
        = tinz_spec mask vsnonW toce tair land nk i := by
  intro mask vsnonW toce tair land nk i
  by_cases hs : (0.01 : ℚ) < vsnonW <;> cases mask <;>
    simp [tinz_code, tinz_spec, hs]

/-- C4: `omnibry_var` returns exactly 4 specs, in the order W, S, E, N,
replacing the placeholder in the name and in every attribute value with
the direction letter, and in every dimension name with the direction's
coordinate axis (`eta_t` for W and E, `xi_t` for S and N). -/
theorem omnibry_var_correct :
    ∀ (name : String) (dtype : NpType) (dims : List String)
      (attrs : List (String × String)) (rep : String),
      omnibry_var name dtype dims attrs rep =
        [⟨pyReplace name rep "W", dtype, dims.map (fun d => pyReplace d rep "eta_t"),
          attrs.map (fun kv => (kv.1, pyReplace kv.2 rep "W"))⟩,
         ⟨pyReplace name rep "S", dtype, dims.map (fun d => pyReplace d rep "xi_t"),
          attrs.map (fun kv => (kv.1, pyReplace kv.2 rep "S"))⟩,
         ⟨pyReplace name rep "E", dtype, dims.map (fun d => pyReplace d rep "eta_t"),
          attrs.map (fun kv => (kv.1, pyReplace kv.2 rep "E"))⟩,
         ⟨pyReplace name rep "N", dtype, dims.map (fun d => pyReplace d rep "xi_t"),
          attrs.map (fun kv => (kv.1, pyReplace kv.2 rep "N"))⟩] :=
  fun _ _ _ _ _ => rfl

/-- C7: the grid/clm/atm checks of `write_bry_data` precede every write:
a missing source yields the configuration error naming the first missing
source (grid, then clm, then atm), and no write trace is produced. -/
theorem write_bry_data_checks :
    ∀ (grid clm atm : Option Unit) (nt : ℕ),
      (grid = none → write_bry_data grid clm atm nt = .error .noGrid)
      ∧ (grid ≠ none → clm = none → write_bry_data grid clm atm nt = .error .noClm)
      ∧ (grid ≠ none → clm ≠ none → atm = none →
          write_bry_data grid clm atm nt = .error .noAtm)
      ∧ ((grid = none ∨ clm = none ∨ atm = none) →
          ∀ ws, write_bry_data grid clm atm nt ≠ .ok ws) := by
  intro grid clm atm nt
  cases grid <;> cases clm <;> cases atm <;> simp [write_bry_data]

/-- Witness for `write_bry_data_checks` at concrete inputs. -/
theorem write_bry_data_checks_witness :
    write_bry_data none (some ()) (some ()) 1 = .error .noGrid
    ∧ write_bry_data (some ()) none (some ()) 1 = .error .noClm
    ∧ write_bry_data (some ()) (some ()) none 1 = .error .noAtm :=
  ⟨(write_bry_data_checks none (some ()) (some ()) 1).1 rfl,
   (write_bry_data_checks (some ()) none (some ()) 1).2.1 (by simp) rfl,
   (write_bry_data_checks (some ()) (some ()) none 1).2.2.1 (by simp) (by simp) rfl⟩

/-- `close_guarded` closes a handle exactly when it is an open one. -/
theorem close_guarded_eq (x : HState) :
    close_guarded x = if x = .opened then .closed else x := by cases x <;> rfl

/-- `close_guarded` is idempotent. -/
theorem close_guarded_idem (x : HState) :
    close_guarded (close_guarded x) = close_guarded x := by cases x <;> rfl

/-- C8: the destructors close a handle only when the attribute exists, is
non-`None` and reports itself open (each field changes only from open to
closed); a successful disposal is idempotent; and disposing an object
whose construction failed before any handle was opened (all attributes
absent) raises no error and changes nothing. -/
theorem hax_del_safe :
    (∀ s s' : HaxState, hax_del s = Except.ok s' →
      (s.bry ≠ .null
        ∧ s'.grid = (if s.grid = .opened then .closed else s.grid)
        ∧ s'.clm = (if s.clm = .opened then .closed else s.clm)
        ∧ s'.atm = (if s.atm = .opened then .closed else s.atm)
        ∧ s'.bry = (if s.bry = .opened then .closed else s.bry))
      ∧ hax_del s' = Except.ok s')
    ∧ hax_del ⟨.absent, .absent, .absent, .absent⟩
        = Except.ok ⟨.absent, .absent, .absent, .absent⟩ := by
  constructor
  · rintro ⟨g, c, a, b⟩ s' h
    cases b with
    | null => simp [hax_del, close_bry] at h
    | absent =>
      simp [hax_del, close_bry] at h
      subst h
      exact ⟨⟨by simp, by simp [close_guarded_eq], by simp [close_guarded_eq],
              by simp [close_guarded_eq], by simp⟩,
             by simp [hax_del, close_bry, close_guarded_idem]⟩
    | opened =>
      simp [hax_del, close_bry] at h
      subst h
      exact ⟨⟨by simp, by simp [close_guarded_eq], by simp [close_guarded_eq],
              by simp [close_guarded_eq], by simp⟩,
             by simp [hax_del, close_bry, close_guarded_idem]⟩
    | closed =>
      simp [hax_del, close_bry] at h
      subst h
      exact ⟨⟨by simp, by simp [close_guarded_eq], by simp [close_guarded_eq],
              by simp [close_guarded_eq], by simp⟩,
             by simp [hax_del, close_bry, close_guarded_idem]⟩
  · rfl

/-- Witness for `hax_del_safe` at a concrete state. -/
theorem hax_del_safe_witness :
    hax_del ⟨.closed, .closed, .absent, .closed⟩
      = Except.ok ⟨.closed, .closed, .absent, .closed⟩ :=
  (hax_del_safe.1 ⟨.opened, .closed, .absent, .opened⟩
    ⟨.closed, .closed, .absent, .closed⟩ rfl).2

/-- C10: for every argument string, `set_cice_rst` raises an unhandled
name-resolution error and never attaches the restart source: the
wildcard branch references the never-imported name `glob`, and the other
branch sets `self.cice_file` but then iterates the undefined name
`cice_files`; `self.cice` is never populated. -/
theorem set_cice_rst_always_fails :
    ∀ (s0 : RstState) (cf : String) (globEval : String → List String)
      (ciceFilesVal : List String),
      ((set_cice_rst s0 cf globEval ciceFilesVal).2.isSome = true)
      ∧ (set_cice_rst s0 cf globEval ciceFilesVal).1.cice = s0.cice
      ∧ ((cf.data.contains '*' || cf.data.contains '?') = true →
          set_cice_rst s0 cf globEval ciceFilesVal = (s0, some .glob))
      ∧ ((cf.data.contains '*' || cf.data.contains '?') = false →
          set_cice_rst s0 cf globEval ciceFilesVal
            = (⟨some [cf], s0.cice_files, s0.cice⟩, some .ciceFiles)) := by
  intro s0 cf globEval cfv
  have hg : name_resolves "glob" = false := by decide
  have hc : name_resolves "cice_files" = false := by decide
  by_cases hw : (cf.data.contains '*' || cf.data.contains '?') = true
  · have hw' : '*' ∈ cf.data ∨ '?' ∈ cf.data := by simpa using hw
    simp [set_cice_rst, hw, hw', hg]
    tauto
  · simp only [Bool.not_eq_true] at hw
    have hw' : ¬('*' ∈ cf.data ∨ '?' ∈ cf.data) := by simpa using hw
    simp [set_cice_rst, hw, hw', hc]

/-- Witness for `set_cice_rst_always_fails` at concrete inputs. -/
theorem set_cice_rst_always_fails_witness :
    set_cice_rst ⟨none, none, none⟩ "iced.*.nc" (fun _ => []) []
      = (⟨none, none, none⟩, some .glob)
    ∧ set_cice_rst ⟨none, none, none⟩ "iced.nc" (fun _ => []) []
      = (⟨some ["iced.nc"], none, none⟩, some .ciceFiles) :=
  ⟨(set_cice_rst_always_fails ⟨none, none, none⟩ "iced.*.nc" (fun _ => []) []).2.2.1
    (by decide),
   (set_cice_rst_always_fails ⟨none, none, none⟩ "iced.nc" (fun _ => []) []).2.2.2
    (by decide)⟩

/-- The head of `(range n).filter p` is the least index below `n`
satisfying `p` (the semantics of `np.where(cond)[0][0]`). -/
theorem head?_filter_range : ∀ (n : ℕ) (p : ℕ → Bool) (i : ℕ),
    ((List.range n).filter p).head? = some i ↔
      i < n ∧ p i = true ∧ ∀ k < i, ¬ p k = true := by
  intro n
  induction n with
  | zero => intro p i; simp
  | succ n ih =>
    intro p i
    rw [List.range_succ_eq_map]
    by_cases hp : p 0
    · rw [List.filter_cons_of_pos hp]
      simp only [List.head?_cons, Option.some.injEq]
      constructor
      · rintro rfl
        exact ⟨Nat.succ_pos n, hp, fun k hk => absurd hk (Nat.not_lt_zero k)⟩
      · rintro ⟨_, _, hmin⟩
        by_contra hne
        exact hmin 0 (Nat.pos_of_ne_zero (fun h => hne h.symm)) hp
    · rw [List.filter_cons_of_neg hp, List.filter_map, List.head?_map]
      constructor
      · intro h
        obtain ⟨i', hi', rfl⟩ := Option.map_eq_some'.mp h
        obtain ⟨hlt, hpi, hmin⟩ := (ih _ i').mp hi'
        refine ⟨Nat.succ_lt_succ hlt, hpi, fun k hk => ?_⟩
        cases k with
        | zero => exact hp
        | succ k' => exact hmin k' (Nat.lt_of_succ_lt_succ hk)
      · rintro ⟨hlt, hpi, hmin⟩
        cases i with
        | zero => exact absurd hpi hp
        | succ i' =>
          refine Option.map_eq_some'.mpr ⟨i', (ih _ i').mpr ⟨Nat.lt_of_succ_lt_succ hlt, hpi, ?_⟩, rfl⟩
          intro k hk
          exact hmin (k + 1) (Nat.succ_lt_succ hk)

/-- C5: `get_time_endpoints` returns the first index whose time-axis value
is exactly equal to the start (resp. end) date; if the start date has no
exact match it fails with `startNotFound` naming the date and the file
path; if the end date has no exact match it fails with `endNotFound`. -/
theorem get_time_endpoints_correct :
    ∀ (time : List ℤ) (sd ed : ℤ) (path : String),
      (∀ i j, get_time_endpoints time (some sd) (some ed) path = .ok (i, j) →
        (i < time.length ∧ time.getD i 0 = sd ∧ ∀ k < i, time.getD k 0 ≠ sd)
        ∧ (j < time.length ∧ time.getD j 0 = ed ∧ ∀ k < j, time.getD k 0 ≠ ed))
      ∧ (sd ∉ time →
          get_time_endpoints time (some sd) (some ed) path
            = .error (.startNotFound sd path))
      ∧ (sd ∈ time → ed ∉ time →
          get_time_endpoints time (some sd) (some ed) path
            = .error (.endNotFound ed path)) := by
  intro time sd ed path
  have hempty : ∀ d : ℤ, d ∉ time → np_where_eq time d = [] := by
    intro d hd
    refine List.filter_eq_nil_iff.mpr (fun a ha => ?_)
    simp only [List.mem_range] at ha
    simp only [beq_iff_eq]
    intro hcontra
    exact hd (hcontra ▸ (List.getD_eq_getElem time 0 ha ▸ List.getElem_mem ha))
  refine ⟨?_, ?_, ?_⟩
  · intro i j hok
    cases hs : (np_where_eq time sd).head? with
    | none => simp [get_time_endpoints, hs] at hok
    | some i0 =>
      cases he : (np_where_eq time ed).head? with
      | none => simp [get_time_endpoints, hs, he] at hok
      | some j0 =>
        simp only [get_time_endpoints, hs, he, Except.ok.injEq, Prod.mk.injEq] at hok
        obtain ⟨rfl, rfl⟩ := hok
        obtain ⟨hi1, hi2, hi3⟩ := (head?_filter_range _ _ _).mp hs
        obtain ⟨hj1, hj2, hj3⟩ := (head?_filter_range _ _ _).mp he
        simp only [beq_iff_eq] at hi2 hj2 hi3 hj3
        exact ⟨⟨hi1, hi2, fun k hk => hi3 k hk⟩, ⟨hj1, hj2, fun k hk => hj3 k hk⟩⟩
  · intro hsd
    simp [get_time_endpoints, hempty sd hsd]
  · intro hsd hed
    have hne : np_where_eq time sd ≠ [] := by
      obtain ⟨⟨idx, hlt⟩, hval⟩ := List.mem_iff_get.mp hsd
      intro hnil
      have : idx ∈ np_where_eq time sd := by
        refine List.mem_filter.mpr ⟨List.mem_range.mpr hlt, ?_⟩
        simp only [beq_iff_eq]
        rw [List.getD_eq_getElem time 0 hlt]
        simpa [List.get_eq_getElem] using hval
      rw [hnil] at this
      exact absurd this (List.not_mem_nil idx)
    cases hs : (np_where_eq time sd).head? with
    | none => exact absurd (List.head?_eq_none_iff.mp hs) hne
    | some i0 => simp [get_time_endpoints, hs, hempty ed hed]

/-- Witness for `get_time_endpoints_correct` at a concrete time axis. -/
theorem get_time_endpoints_correct_witness :
    ((1 : ℕ) < ([5, 7, 9] : List ℤ).length ∧ ([5, 7, 9] : List ℤ).getD 1 0 = 7
      ∧ ∀ k < 1, ([5, 7, 9] : List ℤ).getD k 0 ≠ 7)
    ∧ ((2 : ℕ) < ([5, 7, 9] : List ℤ).length ∧ ([5, 7, 9] : List ℤ).getD 2 0 = 9
      ∧ ∀ k < 2, ([5, 7, 9] : List ℤ).getD k 0 ≠ 9) :=
  (get_time_endpoints_correct [5, 7, 9] 7 9 "clm.nc").1 1 2 rfl

/-- The extraneous-variable loop returns success iff every file variable
name is in `necessary`. -/
theorem verify_loop2_fst_ok_iff (nec : List String) :
    ∀ (ks : List String) (l : Option String),
      (verify_loop2 nec ks l).1 = .ok ↔ ∀ k ∈ ks, nec.contains k := by
  intro ks
  induction ks with
  | nil => intro l; simp [verify_loop2]
  | cons k ks ih =>
    intro l
    by_cases hk : nec.contains k
    · rw [verify_loop2, if_pos hk, ih]
      constructor
      · intro h k' hk'
        rcases List.mem_cons.mp hk' with rfl | hmem
        exacts [hk, h k' hmem]
      · intro h k' hk'
        exact h k' (List.mem_cons_of_mem k hk')
    · rw [verify_loop2, if_neg hk]
      constructor
      · intro h; exact absurd h (by simp)
      · intro h; exact absurd (h k (List.mem_cons_self k ks)) hk

/-- The extraneous-variable loop never reports a missing variable. -/
theorem verify_loop2_fst_ne_missing (nec : List String) :
    ∀ (ks : List String) (l : Option String) (v : String),
      (verify_loop2 nec ks l).1 ≠ .missing v := by
  intro ks
  induction ks with
  | nil => intro l v; simp [verify_loop2]
  | cons k ks ih =>
    intro l v
    by_cases hk : nec.contains k
    · rw [verify_loop2, if_pos hk]
      exact ih (some k) v
    · rw [verify_loop2, if_neg hk]
      simp

/-- A variable reported extraneous is a file variable not in `necessary`. -/
theorem verify_loop2_fst_extraneous (nec : List String) :
    ∀ (ks : List String) (l : Option String) (v : String),
      (verify_loop2 nec ks l).1 = .extraneous v → v ∈ ks ∧ ¬ nec.contains v := by
  intro ks
  induction ks with
  | nil => intro l v h; simp [verify_loop2] at h
  | cons k ks ih =>
    intro l v h
    by_cases hk : nec.contains k
    · rw [verify_loop2, if_pos hk] at h
      obtain ⟨hmem, hnc⟩ := ih (some k) v h
      exact ⟨List.mem_cons_of_mem k hmem, hnc⟩
    · rw [verify_loop2, if_neg hk] at h
      simp only [VerResult.extraneous.injEq] at h
      subst h
      exact ⟨List.mem_cons_self k ks, hk⟩

/-- On success over a nonempty key list, the last name assigned by the
extraneous-variable loop is the last file variable name. -/
theorem verify_loop2_snd_ok (nec : List String) :
    ∀ (ks : List String) (l : Option String), ks ≠ [] →
      (verify_loop2 nec ks l).1 = .ok → (verify_loop2 nec ks l).2 = ks.getLast? := by
  intro ks
  induction ks with
  | nil => intro l h; exact absurd rfl h
  | cons k ks ih =>
    intro l _ hok
    by_cases hk : nec.contains k
    · rw [verify_loop2, if_pos hk] at hok ⊢
      cases ks with
      | nil => simp [verify_loop2]
      | cons k' ks' =>
        rw [List.getLast?_cons_cons]
        exact ih (some k) (by simp) hok
    · rw [verify_loop2, if_neg hk] at hok
      exact absurd hok (by simp)

/-- `setLastName` keeps every entry's dtype, dims and attrs. -/
theorem setLastName_map_shape : ∀ (vs : List BryVar) (nm : String),
    (setLastName vs nm).map (fun v => (v.dtype, v.dims, v.attrs))
      = vs.map (fun v => (v.dtype, v.dims, v.attrs))
  | [], _ => rfl
  | [_], _ => rfl
  | v :: w :: rest, nm => by
    have ih := setLastName_map_shape (w :: rest) nm
    simp only [setLastName, List.map_cons] at ih ⊢
    rw [ih]

/-- `setLastName` of a nonempty list is nonempty. -/
theorem setLastName_ne_nil : ∀ (vs : List BryVar) (nm : String), vs ≠ [] →
    setLastName vs nm ≠ []
  | [], _, h => absurd rfl h
  | [_], _, _ => by simp [setLastName]
  | _ :: _ :: _, _, _ => by simp [setLastName]

/-- `setLastName` keeps all entries but the last. -/
theorem setLastName_dropLast : ∀ (vs : List BryVar) (nm : String),
    (setLastName vs nm).dropLast = vs.dropLast
  | [], _ => rfl
  | [_], _ => rfl
  | v :: w :: rest, nm => by
    have ih := setLastName_dropLast (w :: rest) nm
    simp only [setLastName]
    rw [List.dropLast_cons_of_ne_nil (setLastName_ne_nil (w :: rest) nm (by simp)),
        List.dropLast_cons_of_ne_nil (by simp : (w :: rest) ≠ []), ih]

/-- The last entry of `setLastName vs nm` carries the name `nm`. -/
theorem setLastName_getLast?_name : ∀ (vs : List BryVar) (nm : String), vs ≠ [] →
    ((setLastName vs nm).getLast?).map BryVar.name = some nm
  | [], _, h => absurd rfl h
  | [_], _, _ => rfl
  | v :: w :: rest, nm, _ => by
    have ih := setLastName_getLast?_name (w :: rest) nm (by simp)
    simp only [setLastName]
    cases hrw : setLastName (w :: rest) nm with
    | nil => exact absurd hrw (setLastName_ne_nil (w :: rest) nm (by simp))
    | cons x xs =>
      rw [List.getLast?_cons_cons]
      rw [hrw] at ih
      exact ih

/-- C6: `verify_variables` (run, as in the class, with `necessary` equal
to the catalog names) succeeds iff the set of variable names in the file
equals the set of catalog names; a missing-variable failure names a
catalog variable absent from the file; an extraneous-variable failure
names a file variable not in the catalog. -/
theorem verify_variables_correct :
    ∀ (vs : List BryVar) (files : List String),
      ((verify_variables vs (vs.map BryVar.name) files).1 = .ok ↔
        ((∀ n ∈ vs.map BryVar.name, n ∈ files) ∧ (∀ k ∈ files, k ∈ vs.map BryVar.name)))
      ∧ (∀ v, (verify_variables vs (vs.map BryVar.name) files).1 = .missing v →
          v ∈ vs.map BryVar.name ∧ v ∉ files)
      ∧ (∀ v, (verify_variables vs (vs.map BryVar.name) files).1 = .extraneous v →
          v ∈ files ∧ v ∉ vs.map BryVar.name) := by
  intro vs files
  cases hf : vs.find? (fun v => !(files.contains v.name)) with
  | some v =>
    have hv1 : v ∈ vs := List.mem_of_find?_eq_some hf
    have hv2 : v.name ∉ files := by
      have h := List.find?_some hf
      simpa using h
    have hres : verify_variables vs (vs.map BryVar.name) files = (.missing v.name, vs) := by
      simp only [verify_variables, hf]
    refine ⟨?_, ?_, ?_⟩
    · rw [hres]
      constructor
      · intro h; exact absurd h (by simp)
      · rintro ⟨h1, _⟩
        exact absurd (h1 v.name (List.mem_map_of_mem BryVar.name hv1)) hv2
    · intro w hw
      rw [hres] at hw
      simp only [VerResult.missing.injEq] at hw
      subst hw
      exact ⟨List.mem_map_of_mem BryVar.name hv1, hv2⟩
    · intro w hw
      rw [hres] at hw
      simp at hw
  | none =>
    have hall : ∀ v ∈ vs, v.name ∈ files := by
      intro v hv
      have h := List.find?_eq_none.mp hf v hv
      simpa using h
    cases vs with
    | nil =>
      cases files with
      | nil =>
        refine ⟨by simp [verify_variables, verify_loop2], ?_, ?_⟩ <;>
          (intro v hv; simp [verify_variables, verify_loop2] at hv)
      | cons k ks =>
        have hres : verify_variables ([] : List BryVar)
            (([] : List BryVar).map BryVar.name) (k :: ks) = (.nameErr, []) := by
          simp [verify_variables]
        refine ⟨?_, ?_, ?_⟩
        · rw [hres]
          constructor
          · intro h; exact absurd h (by simp)
          · rintro ⟨_, h2⟩
            exact absurd (h2 k (List.mem_cons_self k ks)) (by simp)
        · intro v hv; rw [hres] at hv; simp at hv
        · intro v hv; rw [hres] at hv; simp at hv
    | cons v0 vs' =>
      have hres1 : (verify_variables (v0 :: vs') ((v0 :: vs').map BryVar.name) files).1
          = (verify_loop2 ((v0 :: vs').map BryVar.name) files none).1 := by
        cases hl : verify_loop2 ((v0 :: vs').map BryVar.name) files none with
        | mk r lastv => cases lastv <;> simp only [verify_variables, hf, hl]
      refine ⟨?_, ?_, ?_⟩
      · rw [hres1, verify_loop2_fst_ok_iff]
        constructor
        · intro h
          refine ⟨?_, fun k hk => by simpa using h k hk⟩
          intro n hn
          obtain ⟨v, hv, rfl⟩ := List.mem_map.mp hn
          exact hall v hv
        · rintro ⟨_, h2⟩ k hk
          simpa using h2 k hk
      · intro v hv
        rw [hres1] at hv
        exact absurd hv (verify_loop2_fst_ne_missing _ files none v)
      · intro v hv
        rw [hres1] at hv
        obtain ⟨h1, h2⟩ := verify_loop2_fst_extraneous _ files none v hv
        exact ⟨h1, fun hmem => h2 (by simpa using hmem)⟩

/-- Witness for `verify_variables_correct`: on an empty file, the first
missing variable reported is `"Time"`, a catalog name absent from the
file. -/
theorem verify_variables_correct_witness :
    "Time" ∈ load_bry_vars.map BryVar.name ∧ "Time" ∉ ([] : List String) :=
  (verify_variables_correct load_bry_vars []).2.1 "Time" rfl

/-- C9 (amended): `verify_variables` never changes any catalog entry's
dtype, dims or attrs, and changes no entry other than the last; but when
the extraneous-variable loop runs (`for var.name in ...` with `var` bound
to the last catalog entry) and succeeds over a nonempty file list, the
last entry's name ends up equal to the last file variable name — so it is
preserved only when that key happens to equal its original name. -/
theorem verify_variables_frame :
    ∀ (vs : List BryVar) (nec files : List String),
      ((verify_variables vs nec files).2.map (fun v => (v.dtype, v.dims, v.attrs))
         = vs.map (fun v => (v.dtype, v.dims, v.attrs)))
      ∧ (verify_variables vs nec files).2.dropLast = vs.dropLast
      ∧ ((verify_variables vs nec files).1 = .ok → vs ≠ [] → files ≠ [] →
          ((verify_variables vs nec files).2.getLast?).map BryVar.name
            = files.getLast?) := by
  intro vs nec files
  cases hf : vs.find? (fun v => !(files.contains v.name)) with
  | some v =>
    have hres : verify_variables vs nec files = (.missing v.name, vs) := by
      simp only [verify_variables, hf]
    rw [hres]
    exact ⟨rfl, rfl, fun hok => absurd hok (by simp)⟩
  | none =>
    cases vs with
    | nil =>
      cases files with
      | nil =>
        exact ⟨by simp [verify_variables, verify_loop2],
               by simp [verify_variables, verify_loop2],
               fun _ hne _ => absurd rfl hne⟩
      | cons k ks =>
        have hres : verify_variables ([] : List BryVar) nec (k :: ks) = (.nameErr, []) := by
          simp only [verify_variables, List.find?_nil]
        rw [hres]
        exact ⟨rfl, rfl, fun hok => absurd hok (by simp)⟩
    | cons v0 vs' =>
      cases hl : verify_loop2 nec files none with
      | mk r lastv =>
        cases lastv with
        | none =>
          have hres : verify_variables (v0 :: vs') nec files = (r, v0 :: vs') := by
            simp only [verify_variables, hf, hl]
          rw [hres]
          refine ⟨rfl, rfl, ?_⟩
          intro hok _ hfiles
          have hsnd := verify_loop2_snd_ok nec files none hfiles (by rw [hl]; exact hok)
          rw [hl] at hsnd
          exact absurd (List.getLast?_eq_none_iff.mp hsnd.symm) hfiles
        | some nm =>
          have hres : verify_variables (v0 :: vs') nec files
              = (r, setLastName (v0 :: vs') nm) := by
            simp only [verify_variables, hf, hl]
          rw [hres]
          refine ⟨setLastName_map_shape _ nm, setLastName_dropLast _ nm, ?_⟩
          intro hok _ hfiles
          have hsnd := verify_loop2_snd_ok nec files none hfiles (by rw [hl]; exact hok)
          rw [hl] at hsnd
          rw [setLastName_getLast?_name _ nm (by simp)]
          exact hsnd

/-- Witness for `verify_variables_frame`: a successful run over a
two-variable file sets the last catalog entry's name to the last file
variable name. -/
theorem verify_variables_frame_witness :
    ((verify_variables [⟨"a", .float64, [], []⟩] ["a", "b"] ["a", "b"]).2.getLast?).map
        BryVar.name
      = (["a", "b"] : List String).getLast? :=
  (verify_variables_frame [⟨"a", .float64, [], []⟩] ["a", "b"] ["a", "b"]).2.2
    rfl (by simp) (by simp)

/-- Counterexample to C9 as stated: running `verify_variables` on the
real catalog against a file holding exactly the catalog's variables in a
rotated order succeeds, yet the in-memory catalog is changed (the last
entry's name is overwritten with the last file variable name). -/
theorem verify_variables_mutates_catalog :
    (verify_variables load_bry_vars (load_bry_vars.map BryVar.name)
        ((load_bry_vars.map BryVar.name).drop 1
          ++ (load_bry_vars.map BryVar.name).take 1)).1 = VerResult.ok
    ∧ (verify_variables load_bry_vars (load_bry_vars.map BryVar.name)
        ((load_bry_vars.map BryVar.name).drop 1
          ++ (load_bry_vars.map BryVar.name).take 1)).2 ≠ load_bry_vars := by
  constructor
  · decide
  · decide
